import Mathlib

/-!
Verification of the tinycoro coroutine wrapper (src/src/lib.rs) against its
specification.  The crate is a thin safe wrapper over the minicoro C engine;
the engine itself is not among the crate's sources, so its behaviour
(`mco_create`, `mco_resume`, `mco_yield`, `mco_status`, `mco_push`,
`mco_pop`, `mco_get_bytes_stored`, `mco_get_storage_size`, `mco_running`,
`mco_destroy`) is modelled from the specification (sections 3, 4.1, 4.3,
4.4, 4.5), while every public wrapper function is translated directly from
src/src/lib.rs.  Handles are natural numbers, with `0` playing the role of
the null pointer.  Bytes are natural numbers (their values are opaque to the
engine).
-/

-- Raw engine result codes.  Modelled from the spec: section 4.5 lists the
-- closed outcome set in this order; each outcome is one distinct code.
def MCO_SUCCESS : Nat := 0

def MCO_GENERIC_ERROR : Nat := 1

def MCO_INVALID_POINTER : Nat := 2

def MCO_INVALID_COROUTINE : Nat := 3

def MCO_NOT_SUSPENDED : Nat := 4

def MCO_NOT_RUNNING : Nat := 5

def MCO_MAKE_CONTEXT_ERROR : Nat := 6

def MCO_SWITCH_CONTEXT_ERROR : Nat := 7

def MCO_NOT_ENOUGH_SPACE : Nat := 8

def MCO_OUT_OF_MEMORY : Nat := 9

def MCO_INVALID_ARGUMENTS : Nat := 10

def MCO_INVALID_OPERATION : Nat := 11

def MCO_STACK_OVERFLOW : Nat := 12

-- Raw engine state codes.  Modelled from the spec: section 4.1 states
-- Suspended/Running/Normal/Dead; one distinct code per state.
def MCO_DEAD : Nat := 0

def MCO_NORMAL : Nat := 1

def MCO_RUNNING : Nat := 2

def MCO_SUSPENDED : Nat := 3

-- Modelled from the spec: the documented minimum stack size floor value
-- (section 6); the concrete number is irrelevant to the claims.
def MCO_MIN_STACK_SIZE : Nat := 32768

/-- The storage channel of one control block (spec section 4.3): an ordered
byte buffer with a fixed capacity. -/
structure Channel where
  bytes : List Nat
  capacity : Nat
  deriving DecidableEq

/-- One control block (spec section 3): engine state, the body script
(`yields` = how many more times the entry routine will yield before it
returns) and the storage channel.  Stack and saved context are opaque to
every claim and therefore not represented. -/
structure ControlBlock where
  rawState : Nat
  yields : Nat
  channel : Channel
  deriving DecidableEq

/-- The engine state of one execution thread: the control blocks reachable
through handles (0 = null, never a valid handle), the registry's chain of
active coroutines (head = currently Running, spec section 4.4), and a
freshness counter for allocation. -/
structure Engine where
  coros : Nat → Option ControlBlock
  chain : List Nat
  next : Nat

/-- Update the control block stored at handle `h` (no-op on an invalid
handle). -/
def Engine.setCoro (e : Engine) (h : Nat) (f : ControlBlock → ControlBlock) : Engine :=
  { e with coros := fun k => if k = h then (e.coros k).map f else e.coros k }

/-- Modelled from the spec (section 4.4): the registry answers "who is
running now" with the top of the active chain, null (0) at the root. -/
def mco_running (e : Engine) : Nat :=
  e.chain.headD 0

/-- Modelled from the spec (sections 4.1/6): `status` reports the target's
state; an invalid handle reads as Dead. -/
def mco_status (e : Engine) (h : Nat) : Nat :=
  match e.coros h with
  | none => MCO_DEAD
  | some cb => cb.rawState

/-- Modelled from the spec (section 2, data/control flow): resuming pushes
the target onto the registry chain, sets the caller (the previous chain
head, if any) to Normal and the target to Running. -/
def resumeEnter (e : Engine) (h : Nat) : Engine :=
  let e1 := match e.chain.head? with
    | some caller => e.setCoro caller fun c => { c with rawState := MCO_NORMAL }
    | none => e
  { e1.setCoro h (fun c => { c with rawState := MCO_RUNNING }) with chain := h :: e1.chain }

/-- Modelled from the spec (section 4.1): after a yield or a return the
registry chain pops and the resumer (new chain head), if any, becomes
Running again. -/
def Engine.popChainRestore (e : Engine) : Engine :=
  let e1 := { e with chain := e.chain.tail }
  match e1.chain.head? with
  | some r => e1.setCoro r fun c => { c with rawState := MCO_RUNNING }
  | none => e1

/-- Modelled from the spec (section 4.1): the body runs until its next yield
(state becomes Suspended, one yield of the script is consumed) or until the
entry routine returns (state becomes Dead); either way control comes back to
the resumer. -/
def bodyRun (e : Engine) (h : Nat) (yields : Nat) : Engine :=
  if 0 < yields then
    (e.setCoro h fun c => { c with rawState := MCO_SUSPENDED, yields := c.yields - 1 }).popChainRestore
  else
    (e.setCoro h fun c => { c with rawState := MCO_DEAD }).popChainRestore

/-- Modelled from the spec (section 4.1): `resume(target)` is valid only if
the target's state is Suspended, failing with NotSuspended otherwise without
changing any state, and with InvalidCoroutine on an invalid handle; on
success it enters the target and returns once the target yields or
returns. -/
def mco_resume (e : Engine) (h : Nat) : Engine × Nat :=
  match e.coros h with
  | none => (e, MCO_INVALID_COROUTINE)
  | some cb =>
    if cb.rawState = MCO_SUSPENDED then
      (bodyRun (resumeEnter e h) h cb.yields, MCO_SUCCESS)
    else (e, MCO_NOT_SUSPENDED)

/-- Modelled from the spec (section 4.1): yield sets the Running target to
Suspended and restores its resumer; it fails with NotRunning when the target
is not Running and with InvalidCoroutine on an invalid handle. -/
def mco_yield (e : Engine) (h : Nat) : Engine × Nat :=
  match e.coros h with
  | none => (e, MCO_INVALID_COROUTINE)
  | some cb =>
    if cb.rawState = MCO_RUNNING then
      ((e.setCoro h fun c => { c with rawState := MCO_SUSPENDED }).popChainRestore, MCO_SUCCESS)
    else (e, MCO_NOT_RUNNING)

/-- Modelled from the spec (section 4.3): push appends at the tail and fails
with NotEnoughSpace, leaving the buffer unchanged, if the payload would
exceed capacity; InvalidCoroutine on an invalid handle. -/
def mco_push (e : Engine) (h : Nat) (data : List Nat) : Engine × Nat :=
  match e.coros h with
  | none => (e, MCO_INVALID_COROUTINE)
  | some cb =>
    if cb.channel.capacity < cb.channel.bytes.length + data.length then
      (e, MCO_NOT_ENOUGH_SPACE)
    else
      (e.setCoro h fun c =>
        { c with channel := { c.channel with bytes := c.channel.bytes ++ data } }, MCO_SUCCESS)

/-- Modelled from the spec (section 4.3): pop removes exactly `len` bytes
from the tail and hands them back through the caller's output buffer (the
`Option` component: `none` means the buffer was never written); it fails
with NotEnoughSpace when fewer than `len` bytes are stored and with
InvalidCoroutine on an invalid handle. -/
def mco_pop (e : Engine) (h : Nat) (len : Nat) : Engine × Nat × Option (List Nat) :=
  match e.coros h with
  | none => (e, MCO_INVALID_COROUTINE, none)
  | some cb =>
    if cb.channel.bytes.length < len then (e, MCO_NOT_ENOUGH_SPACE, none)
    else
      (e.setCoro h fun c =>
        { c with channel :=
          { c.channel with bytes := c.channel.bytes.take (c.channel.bytes.length - len) } },
       MCO_SUCCESS,
       some (cb.channel.bytes.drop (cb.channel.bytes.length - len)))

/-- Modelled from the spec (section 4.3): introspection, consistent with the
push/pop history. -/
def mco_get_bytes_stored (e : Engine) (h : Nat) : Nat :=
  match e.coros h with
  | none => 0
  | some cb => cb.channel.bytes.length

/-- Modelled from the spec (section 4.3): the channel capacity. -/
def mco_get_storage_size (e : Engine) (h : Nat) : Nat :=
  match e.coros h with
  | none => 0
  | some cb => cb.channel.capacity

/-- Modelled from the spec (sections 3/4.1): creation allocates a control
block and stack and initializes the state to Suspended; it fails with
OutOfMemory when the stack allocator cannot satisfy the request (`allocOk`
is the allocator's verdict) and with InvalidArguments when the stack size is
below the documented minimum; on success the out-pointer receives a fresh
non-null handle.  `yields` is the body script of the entry routine. -/
def mco_create (e : Engine) (yields stackSize storageCapacity : Nat) (allocOk : Bool) :
    Engine × Nat × Nat :=
  if allocOk = false then (e, MCO_OUT_OF_MEMORY, 0)
  else if stackSize < MCO_MIN_STACK_SIZE then (e, MCO_INVALID_ARGUMENTS, 0)
  else
    ({ coros := fun k => if k = e.next + 1 then
         some ⟨MCO_SUSPENDED, yields, ⟨[], storageCapacity⟩⟩ else e.coros k,
       chain := e.chain, next := e.next + 1 },
     MCO_SUCCESS, e.next + 1)

/-- Safe wrapper for coroutine states, translated from src/src/lib.rs lines
160-166. -/
inductive CoroutineState where
  | Dead
  | Normal
  | Running
  | Suspended
  deriving DecidableEq

/-- Translated from `CoroutineState::from_raw` (src/src/lib.rs lines
168-177): Normal, Running and Suspended map to themselves, everything else
falls back to Dead. -/
def CoroutineState.from_raw (state : Nat) : CoroutineState :=
  if state = MCO_NORMAL then .Normal
  else if state = MCO_RUNNING then .Running
  else if state = MCO_SUSPENDED then .Suspended
  else .Dead

/-- Safe wrapper for coroutine errors, translated from src/src/lib.rs lines
180-210. -/
inductive CoroutineError where
  | Success
  | GenericError
  | InvalidPointer
  | InvalidCoroutine
  | NotSuspended
  | NotRunning
  | MakeContextError
  | SwitchContextError
  | NotEnoughSpace
  | OutOfMemory
  | InvalidArguments
  | InvalidOperation
  | StackOverflow
  | Unknown
  deriving DecidableEq

/-- Translated from `CoroutineError::from_raw` (src/src/lib.rs lines
212-231): each raw engine code maps to its named variant, any other value
falls back to Unknown. -/
def CoroutineError.from_raw (result : Nat) : CoroutineError :=
  if result = MCO_SUCCESS then .Success
  else if result = MCO_GENERIC_ERROR then .GenericError
  else if result = MCO_INVALID_POINTER then .InvalidPointer
  else if result = MCO_INVALID_COROUTINE then .InvalidCoroutine
  else if result = MCO_NOT_SUSPENDED then .NotSuspended
  else if result = MCO_NOT_RUNNING then .NotRunning
  else if result = MCO_MAKE_CONTEXT_ERROR then .MakeContextError
  else if result = MCO_SWITCH_CONTEXT_ERROR then .SwitchContextError
  else if result = MCO_NOT_ENOUGH_SPACE then .NotEnoughSpace
  else if result = MCO_OUT_OF_MEMORY then .OutOfMemory
  else if result = MCO_INVALID_ARGUMENTS then .InvalidArguments
  else if result = MCO_INVALID_OPERATION then .InvalidOperation
  else if result = MCO_STACK_OVERFLOW then .StackOverflow
  else .Unknown

/-- The thirteen outcomes of the spec's closed error surface (section 4.5),
in the spec's order. -/
def listedOutcomes : List CoroutineError :=
  [.Success, .GenericError, .InvalidPointer, .InvalidCoroutine, .NotSuspended,
   .NotRunning, .MakeContextError, .SwitchContextError, .NotEnoughSpace,
   .OutOfMemory, .InvalidArguments, .InvalidOperation, .StackOverflow]

/-- Translated from `Coroutine::new` (src/src/lib.rs lines 43-56): call
`mco_create`; on `MCO_SUCCESS` wrap the received pointer, otherwise map the
raw code through `CoroutineError::from_raw`. -/
def Coroutine.new (e : Engine) (yields stackSize storageCapacity : Nat) (allocOk : Bool) :
    Engine × Except CoroutineError Nat :=
  let r := mco_create e yields stackSize storageCapacity allocOk
  if r.2.1 = MCO_SUCCESS then (r.1, .ok r.2.2)
  else (r.1, .error (CoroutineError.from_raw r.2.1))

/-- Translated from `Coroutine::resume` (src/src/lib.rs lines 63-70): call
`mco_resume` on the inner handle; `MCO_SUCCESS` becomes `Ok(())`, any other
code is mapped through `CoroutineError::from_raw`. -/
def Coroutine.resume (e : Engine) (inner : Nat) : Engine × Except CoroutineError Unit :=
  let r := mco_resume e inner
  if r.2 = MCO_SUCCESS then (r.1, .ok ())
  else (r.1, .error (CoroutineError.from_raw r.2))

/-- Translated from `Coroutine::yield_now` (src/src/lib.rs lines 77-84). -/
def Coroutine.yield_now (e : Engine) (inner : Nat) : Engine × Except CoroutineError Unit :=
  let r := mco_yield e inner
  if r.2 = MCO_SUCCESS then (r.1, .ok ())
  else (r.1, .error (CoroutineError.from_raw r.2))

/-- Translated from `Coroutine::status` (src/src/lib.rs lines 88-91). -/
def Coroutine.status (e : Engine) (inner : Nat) : CoroutineState :=
  CoroutineState.from_raw (mco_status e inner)

/-- Translated from `Coroutine::push` (src/src/lib.rs lines 98-111): `data`
is the `size_of::<T>()` bytes of the pushed value. -/
def Coroutine.push (e : Engine) (inner : Nat) (data : List Nat) :
    Engine × Except CoroutineError Unit :=
  let r := mco_push e inner data
  if r.2 = MCO_SUCCESS then (r.1, .ok ())
  else (r.1, .error (CoroutineError.from_raw r.2))

/-- Translated from `Coroutine::pop` (src/src/lib.rs lines 118-132): an
uninitialized output buffer of `size = size_of::<T>()` bytes is handed to
`mco_pop`; only on `MCO_SUCCESS` is the buffer read (`assume_init`, here
`Option.getD`), otherwise the raw code is mapped to an error and the buffer
is never read. -/
def Coroutine.pop (e : Engine) (inner : Nat) (size : Nat) :
    Engine × Except CoroutineError (List Nat) :=
  let r := mco_pop e inner size
  if r.2.1 = MCO_SUCCESS then (r.1, .ok (r.2.2.getD []))
  else (r.1, .error (CoroutineError.from_raw r.2.1))

/-- Translated from `Coroutine::bytes_stored` (src/src/lib.rs lines
136-138). -/
def Coroutine.bytes_stored (e : Engine) (inner : Nat) : Nat :=
  mco_get_bytes_stored e inner

/-- Translated from `Coroutine::storage_size` (src/src/lib.rs lines
142-144). -/
def Coroutine.storage_size (e : Engine) (inner : Nat) : Nat :=
  mco_get_storage_size e inner

/-- Translated from `running` (src/src/lib.rs lines 235-238): the raw
current-coroutine pointer, `None` when it is null. -/
def running (e : Engine) : Option Nat :=
  let co := mco_running e
  if co = 0 then none else some co

/-- Translated from `yield_current` (src/src/lib.rs lines 248-259): if
`running()` reports a coroutine, yield it and map the result; otherwise
return `Err(CoroutineError::InvalidCoroutine)`. -/
def yield_current (e : Engine) : Engine × Except CoroutineError Unit :=
  match running e with
  | some co =>
    let r := mco_yield e co
    if r.2 = MCO_SUCCESS then (r.1, .ok ())
    else (r.1, .error (CoroutineError.from_raw r.2))
  | none => (e, .error .InvalidCoroutine)

/-- Translated from `yield_current_unsafe` (src/src/lib.rs lines 270-281):
textually the same body as `yield_current`. -/
def yield_current_unsafe (e : Engine) : Engine × Except CoroutineError Unit :=
  match running e with
  | some co =>
    let r := mco_yield e co
    if r.2 = MCO_SUCCESS then (r.1, .ok ())
    else (r.1, .error (CoroutineError.from_raw r.2))
  | none => (e, .error .InvalidCoroutine)

/-- Translated from `impl Drop for Coroutine` (src/src/lib.rs lines
147-155): `mco_destroy` is invoked exactly when the inner pointer is
non-null; `destroyed` is the log of `mco_destroy` invocations. -/
def coroDrop (inner : Nat) (destroyed : List Nat) : List Nat :=
  if inner ≠ 0 then destroyed ++ [inner] else destroyed

/-- An event in the life of the wrapper's owning handles: a successful
`Coroutine::new` or a `drop` of a live `Coroutine` value. -/
inductive HandleEvent where
  | create (h : Nat)
  | dropco (h : Nat)
  deriving DecidableEq

/-- The observable handle-lifecycle state: every handle ever returned by a
successful create, the handles of currently live `Coroutine` values, and
the log of `mco_destroy` invocations. -/
structure HandleSys where
  created : List Nat
  live : List Nat
  destroyed : List Nat
  deriving DecidableEq

def HandleSys.init : HandleSys := ⟨[], [], []⟩

/-- Modelled from the spec (sections 3/9, plus Rust ownership): a successful
create returns a fresh non-null owning handle; `drop` runs only on a live
value and consumes it, so a value is dropped at most once; the drop body is
`coroDrop`, translated from the source. -/
def handleStep (s : HandleSys) (ev : HandleEvent) : Option HandleSys :=
  match ev with
  | .create h =>
    if h ≠ 0 ∧ h ∉ s.created then
      some ⟨s.created ++ [h], h :: s.live, s.destroyed⟩
    else none
  | .dropco h =>
    if h ∈ s.live then
      some ⟨s.created, s.live.erase h, coroDrop h s.destroyed⟩
    else none

/-- Run a sequence of handle events from a state. -/
def handleExec (s : HandleSys) : List HandleEvent → Option HandleSys
  | [] => some s
  | ev :: evs =>
    match handleStep s ev with
    | none => none
    | some s1 => handleExec s1 evs

/-- The handle-lifecycle invariant: logs are duplicate-free, the null handle
is never destroyed, live and destroyed handles all stem from creates, no
live handle has been destroyed, and every created handle is still live or
already destroyed. -/
def HandleInv (s : HandleSys) : Prop :=
  s.created.Nodup ∧ s.live.Nodup ∧ s.destroyed.Nodup ∧
  0 ∉ s.destroyed ∧
  (∀ h ∈ s.live, h ≠ 0) ∧
  (∀ h ∈ s.live, h ∈ s.created) ∧
  (∀ h ∈ s.destroyed, h ∈ s.created) ∧
  (∀ h ∈ s.live, h ∉ s.destroyed) ∧
  (∀ h ∈ s.created, h ∈ s.live ∨ h ∈ s.destroyed)

/-- An error value is surfaced when some fallible public operation of the
wrapper returns it. -/
def SurfacedError (err : CoroutineError) : Prop :=
  (∃ e y ss cap ok, (Coroutine.new e y ss cap ok).2 = .error err) ∨
  (∃ e h, (Coroutine.resume e h).2 = .error err) ∨
  (∃ e h, (Coroutine.yield_now e h).2 = .error err) ∨
  (∃ e, (yield_current e).2 = .error err) ∨
  (∃ e, ( yield_current_unsafe e).2 = .error err) ∨
  (∃ e h data, (Coroutine.push e h data).2 = .error err) ∨
  (∃ e h len, (Coroutine.pop e h len).2 = .error err)

/-- A concrete engine at the root: no coroutines, empty registry chain. -/
def rootEngine : Engine := ⟨fun _ => none, [], 0⟩

/-- A concrete engine holding one Suspended coroutine at handle 1 whose body
yields twice, with a 4-byte storage channel containing two bytes. -/
def demoEngine : Engine :=
  ⟨fun k => if k = 1 then some ⟨MCO_SUSPENDED, 2, ⟨[10, 20], 4⟩⟩ else none, [], 1⟩

/-- A concrete engine holding one Dead coroutine at handle 1. -/
def deadEngine : Engine :=
  ⟨fun k => if k = 1 then some ⟨MCO_DEAD, 0, ⟨[], 0⟩⟩ else none, [], 1⟩

/-- A concrete engine whose registry chain has the coroutine at handle 1
currently Running. -/
def runningEngine : Engine :=
  ⟨fun k => if k = 1 then some ⟨MCO_RUNNING, 1, ⟨[], 4⟩⟩ else none, [1], 1⟩

/-- The engine state after `n` successive wrapper `resume` calls on the same
handle. -/
def resumeIter (e : Engine) (h : Nat) : Nat → Engine
  | 0 => e
  | n + 1 => (Coroutine.resume (resumeIter e h n) h).1

theorem Engine.setCoro_coros_self (e : Engine) (h : Nat) (f : ControlBlock → ControlBlock) :
    (e.setCoro h f).coros h = (e.coros h).map f := by
  simp [Engine.setCoro]

theorem Engine.setCoro_coros_ne (e : Engine) {h k : Nat} (f : ControlBlock → ControlBlock)
    (hne : k ≠ h) : (e.setCoro h f).coros k = e.coros k := by
  simp [Engine.setCoro, hne]

theorem Engine.setCoro_chain (e : Engine) (h : Nat) (f : ControlBlock → ControlBlock) :
    (e.setCoro h f).chain = e.chain := rfl

theorem resumeEnter_chain (e : Engine) (h : Nat) :
    (resumeEnter e h).chain = h :: e.chain := by
  cases hc : e.chain <;> simp [resumeEnter, hc, Engine.setCoro]

theorem resumeEnter_coros (e : Engine) (h : Nat) (cb : ControlBlock)
    (hnc : h ∉ e.chain) (hcb : e.coros h = some cb) :
    (resumeEnter e h).coros h = some { cb with rawState := MCO_RUNNING } := by
  cases hc : e.chain with
  | nil => simp [resumeEnter, hc, Engine.setCoro, hcb]
  | cons c rest =>
    have hne : h ≠ c := by
      rintro rfl
      exact hnc (by rw [hc]; exact List.mem_cons_self _ _)
    simp [resumeEnter, hc, Engine.setCoro, hne, hcb]

theorem mco_resume_spec (e : Engine) (h : Nat) (cb : ControlBlock)
    (hnc : h ∉ e.chain) (hcb : e.coros h = some cb) (hs : cb.rawState = MCO_SUSPENDED) :
    (mco_resume e h).2 = MCO_SUCCESS ∧
    (mco_resume e h).1.coros h =
      some ⟨if 0 < cb.yields then MCO_SUSPENDED else MCO_DEAD, cb.yields - 1, cb.channel⟩ ∧
    (mco_resume e h).1.chain = e.chain := by
  have hrs : mco_resume e h = (bodyRun (resumeEnter e h) h cb.yields, MCO_SUCCESS) := by
    simp [mco_resume, hcb, hs]
  have hch := resumeEnter_chain e h
  have hco := resumeEnter_coros e h cb hnc hcb
  rw [hrs]
  refine ⟨rfl, ?_, ?_⟩ <;>
  · cases hc : e.chain with
    | nil =>
      by_cases hy : 0 < cb.yields <;>
        simp [bodyRun, hy, Engine.popChainRestore, Engine.setCoro, hch, hco, hc] <;> omega
    | cons c rest =>
      have hne : h ≠ c := by
        rintro rfl
        exact hnc (by rw [hc]; exact List.mem_cons_self _ _)
      by_cases hy : 0 < cb.yields <;>
        simp [bodyRun, hy, Engine.popChainRestore, Engine.setCoro, hch, hco, hc, hne] <;> omega

deriving instance DecidableEq for Except

theorem from_raw_invalid_coroutine :
    CoroutineError.from_raw MCO_INVALID_COROUTINE = .InvalidCoroutine := by decide

theorem from_raw_not_suspended :
    CoroutineError.from_raw MCO_NOT_SUSPENDED = .NotSuspended := by decide

theorem from_raw_not_running :
    CoroutineError.from_raw MCO_NOT_RUNNING = .NotRunning := by decide

theorem from_raw_not_enough_space :
    CoroutineError.from_raw MCO_NOT_ENOUGH_SPACE = .NotEnoughSpace := by decide

theorem state_from_raw_suspended :
    CoroutineState.from_raw MCO_SUSPENDED = .Suspended := by decide

theorem state_from_raw_running :
    CoroutineState.from_raw MCO_RUNNING = .Running := by decide

theorem state_from_raw_dead :
    CoroutineState.from_raw MCO_DEAD = .Dead := by decide

theorem status_of_coros (e : Engine) (h : Nat) (cb : ControlBlock)
    (hcb : e.coros h = some cb) :
    Coroutine.status e h = CoroutineState.from_raw cb.rawState := by
  simp [Coroutine.status, mco_status, hcb]

theorem resume_error_of_not_suspended (e : Engine) (h : Nat) (cb : ControlBlock)
    (hcb : e.coros h = some cb) (hraw : cb.rawState ≠ MCO_SUSPENDED) :
    Coroutine.resume e h = (e, .error .NotSuspended) := by
  have h2 : mco_resume e h = (e, MCO_NOT_SUSPENDED) := by
    simp [mco_resume, hcb, hraw]
  simp [Coroutine.resume, h2, show MCO_NOT_SUSPENDED ≠ MCO_SUCCESS by decide,
    from_raw_not_suspended]

theorem resume_stage (e : Engine) (h : Nat) (cb : ControlBlock)
    (hnc : h ∉ e.chain) (hcb : e.coros h = some cb) (hs : cb.rawState = MCO_SUSPENDED) :
    (Coroutine.resume e h).2 = .ok () ∧
    (Coroutine.resume e h).1.coros h =
      some ⟨if 0 < cb.yields then MCO_SUSPENDED else MCO_DEAD, cb.yields - 1, cb.channel⟩ ∧
    (Coroutine.resume e h).1.chain = e.chain ∧
    Coroutine.status (resumeEnter e h) h = .Running := by
  obtain ⟨r1, c1, ch1⟩ := mco_resume_spec e h cb hnc hcb hs
  have hw : Coroutine.resume e h = ((mco_resume e h).1, .ok ()) := by
    simp [Coroutine.resume, r1]
  have hen := resumeEnter_coros e h cb hnc hcb
  refine ⟨by rw [hw], by rw [hw]; exact c1, by rw [hw]; exact ch1, ?_⟩
  rw [status_of_coros _ _ _ hen]
  exact state_from_raw_running

/-- C9: `yield_current` and `yield_current_unsafe` are extensionally equal:
on every engine state they perform the same underlying calls and return
exactly the same result. -/
theorem C9_yield_current_variants_agree (e : Engine) :
    yield_current e = yield_current_unsafe e := rfl

/-- C3 as stated is false at a concrete input: invoked at the root (registry
chain empty, so no coroutine is Running), `yield_current` returns the
InvalidCoroutine error, not the NotRunning error. -/
theorem C3_counterexample :
    (yield_current rootEngine).2 = .error .InvalidCoroutine ∧
    (yield_current rootEngine).2 ≠ .error .NotRunning := by
  decide

/-- C3 (amended): whenever `yield_current` is invoked on a thread on which no
coroutine is Running (the registry reports a null current coroutine), it
returns the InvalidCoroutine error and leaves the engine unchanged. -/
theorem C3_yield_current_no_running (e : Engine) (hr : mco_running e = 0) :
    yield_current e = (e, .error .InvalidCoroutine) := by
  simp [yield_current, running, hr]

/-- Witness for C3 (amended) at the concrete root engine. -/
theorem C3_witness :
    mco_running rootEngine = 0 ∧
    yield_current rootEngine = (rootEngine, .error .InvalidCoroutine) :=
  ⟨rfl, C3_yield_current_no_running rootEngine rfl⟩

/-- C2: resume on a coroutine whose state is not Suspended (i.e. Running,
Normal or Dead) returns the NotSuspended error (which is one of
NotSuspended/InvalidOperation) and changes no observable state: the whole
engine — hence every status, the storage contents, every bytes-stored count
and the registry's running chain — is exactly as before the call. -/
theorem C2_resume_not_suspended (e : Engine) (h : Nat) (cb : ControlBlock)
    (hcb : e.coros h = some cb)
    (hns : CoroutineState.from_raw cb.rawState ≠ .Suspended) :
    Coroutine.resume e h = (e, .error .NotSuspended) ∧
    (Coroutine.resume e h).1.coros = e.coros ∧
    (∀ k, Coroutine.status (Coroutine.resume e h).1 k = Coroutine.status e k) ∧
    (∀ k, Coroutine.bytes_stored (Coroutine.resume e h).1 k = Coroutine.bytes_stored e k) ∧
    (Coroutine.resume e h).1.chain = e.chain := by
  have hraw : cb.rawState ≠ MCO_SUSPENDED := fun hr => hns (by rw [hr]; decide)
  have h1 := resume_error_of_not_suspended e h cb hcb hraw
  exact ⟨h1, by rw [h1], by rw [h1]; intro k; rfl, by rw [h1]; intro k; rfl, by rw [h1]⟩

/-- Witness for C2 at a concrete Dead coroutine. -/
theorem C2_witness :
    deadEngine.coros 1 = some ⟨MCO_DEAD, 0, ⟨[], 0⟩⟩ ∧
    CoroutineState.from_raw (MCO_DEAD : Nat) ≠ .Suspended ∧
    Coroutine.resume deadEngine 1 = (deadEngine, .error .NotSuspended) :=
  ⟨rfl, by decide,
    (C2_resume_not_suspended deadEngine 1 ⟨MCO_DEAD, 0, ⟨[], 0⟩⟩ rfl (by decide)).1⟩

/-- C5: a push whose payload would exceed the storage channel's remaining
capacity returns the NotEnoughSpace error and leaves the whole engine — in
particular the buffer contents and the bytes-stored count — unchanged. -/
theorem C5_push_overflow (e : Engine) (h : Nat) (cb : ControlBlock) (data : List Nat)
    (hcb : e.coros h = some cb)
    (hover : cb.channel.capacity < cb.channel.bytes.length + data.length) :
    Coroutine.push e h data = (e, .error .NotEnoughSpace) ∧
    (Coroutine.push e h data).1.coros = e.coros ∧
    Coroutine.bytes_stored (Coroutine.push e h data).1 h = Coroutine.bytes_stored e h := by
  have h2 : mco_push e h data = (e, MCO_NOT_ENOUGH_SPACE) := by
    simp [mco_push, hcb, hover]
  have h1 : Coroutine.push e h data = (e, .error .NotEnoughSpace) := by
    simp [Coroutine.push, h2, show MCO_NOT_ENOUGH_SPACE ≠ MCO_SUCCESS by decide,
      from_raw_not_enough_space]
  exact ⟨h1, by rw [h1], by rw [h1]⟩

/-- Witness for C5: pushing three bytes onto a channel holding two of four
bytes fails with NotEnoughSpace and changes nothing. -/
theorem C5_witness :
    demoEngine.coros 1 = some ⟨MCO_SUSPENDED, 2, ⟨[10, 20], 4⟩⟩ ∧
    (4 : Nat) < 2 + 3 ∧
    Coroutine.push demoEngine 1 [1, 2, 3] = (demoEngine, .error .NotEnoughSpace) :=
  ⟨rfl, by decide,
    (C5_push_overflow demoEngine 1 ⟨MCO_SUSPENDED, 2, ⟨[10, 20], 4⟩⟩ [1, 2, 3] rfl
      (by decide)).1⟩

/-- C7: `running()` returns some handle exactly when the registry reports a
non-null current coroutine (the head of the running chain), and none exactly
when execution is at the root with no coroutine active (empty chain). -/
theorem C7_running_registry (e : Engine) (hn : 0 ∉ e.chain) :
    (∀ h, running e = some h ↔ mco_running e = h ∧ h ≠ 0) ∧
    (running e = none ↔ e.chain = []) := by
  cases hc : e.chain with
  | nil => simp [running, mco_running, hc]
  | cons c rest =>
    have hc0 : c ≠ 0 := fun h0 => hn (by rw [hc, h0]; exact List.mem_cons_self _ _)
    constructor
    · intro h
      simp only [running, mco_running, hc, List.headD_cons, if_neg hc0,
        Option.some.injEq]
      constructor
      · rintro rfl; exact ⟨rfl, hc0⟩
      · rintro ⟨rfl, _⟩; rfl
    · simp [running, mco_running, hc, hc0]

/-- Witness for C7 at a concrete engine with one Running coroutine. -/
theorem C7_witness :
    (0 : Nat) ∉ runningEngine.chain ∧
    ((∀ h, running runningEngine = some h ↔ mco_running runningEngine = h ∧ h ≠ 0) ∧
     (running runningEngine = none ↔ runningEngine.chain = [])) :=
  ⟨by decide, C7_running_registry runningEngine (by decide)⟩

/-- C1: a coroutine in the Suspended state whose body yields exactly twice
and then returns goes, over three successive resume calls, through the
status sequence Suspended, Suspended, Dead — being Running while its body
executes (the entered engine state) — and a fourth resume returns the
NotSuspended error and leaves the status equal to Dead. -/
theorem C1_resume_lifecycle (e : Engine) (h : Nat) (cb : ControlBlock)
    (hnc : h ∉ e.chain) (hcb : e.coros h = some cb)
    (hs : cb.rawState = MCO_SUSPENDED) (hy : cb.yields = 2) :
    Coroutine.status e h = .Suspended ∧
    Coroutine.status (resumeEnter e h) h = .Running ∧
    (Coroutine.resume e h).2 = .ok () ∧
    Coroutine.status (resumeIter e h 1) h = .Suspended ∧
    Coroutine.status (resumeEnter (resumeIter e h 1) h) h = .Running ∧
    (Coroutine.resume (resumeIter e h 1) h).2 = .ok () ∧
    Coroutine.status (resumeIter e h 2) h = .Suspended ∧
    Coroutine.status (resumeEnter (resumeIter e h 2) h) h = .Running ∧
    (Coroutine.resume (resumeIter e h 2) h).2 = .ok () ∧
    Coroutine.status (resumeIter e h 3) h = .Dead ∧
    Coroutine.resume (resumeIter e h 3) h = (resumeIter e h 3, .error .NotSuspended) ∧
    Coroutine.status (resumeIter e h 4) h = .Dead := by
  obtain ⟨ra, ca0, cha0, da⟩ := resume_stage e h cb hnc hcb hs
  rw [hy] at ca0
  have ca1 : (resumeIter e h 1).coros h = some ⟨MCO_SUSPENDED, 1, cb.channel⟩ := by
    show (Coroutine.resume e h).1.coros h = _
    rw [ca0]; norm_num
  have hch1 : (resumeIter e h 1).chain = e.chain := by
    show (Coroutine.resume e h).1.chain = _
    exact cha0
  have hnc1 : h ∉ (resumeIter e h 1).chain := by rw [hch1]; exact hnc
  obtain ⟨rb, cb0, chb0, db⟩ :=
    resume_stage (resumeIter e h 1) h ⟨MCO_SUSPENDED, 1, cb.channel⟩ hnc1 ca1 rfl
  have ca2 : (resumeIter e h 2).coros h = some ⟨MCO_SUSPENDED, 0, cb.channel⟩ := by
    show (Coroutine.resume (resumeIter e h 1) h).1.coros h = _
    rw [cb0]; norm_num
  have hch2 : (resumeIter e h 2).chain = e.chain := by
    show (Coroutine.resume (resumeIter e h 1) h).1.chain = _
    rw [chb0, hch1]
  have hnc2 : h ∉ (resumeIter e h 2).chain := by rw [hch2]; exact hnc
  obtain ⟨rc, cc0, chc0, dc⟩ :=
    resume_stage (resumeIter e h 2) h ⟨MCO_SUSPENDED, 0, cb.channel⟩ hnc2 ca2 rfl
  have ca3 : (resumeIter e h 3).coros h = some ⟨MCO_DEAD, 0, cb.channel⟩ := by
    show (Coroutine.resume (resumeIter e h 2) h).1.coros h = _
    rw [cc0]; norm_num
  have h4 := resume_error_of_not_suspended (resumeIter e h 3) h
    ⟨MCO_DEAD, 0, cb.channel⟩ ca3 (show (MCO_DEAD : Nat) ≠ MCO_SUSPENDED by decide)
  have st0 : Coroutine.status e h = .Suspended := by
    rw [status_of_coros _ _ _ hcb, hs]; exact state_from_raw_suspended
  have st1 : Coroutine.status (resumeIter e h 1) h = .Suspended := by
    rw [status_of_coros _ _ _ ca1]; exact state_from_raw_suspended
  have st2 : Coroutine.status (resumeIter e h 2) h = .Suspended := by
    rw [status_of_coros _ _ _ ca2]; exact state_from_raw_suspended
  have st3 : Coroutine.status (resumeIter e h 3) h = .Dead := by
    rw [status_of_coros _ _ _ ca3]; exact state_from_raw_dead
  have st4 : Coroutine.status (resumeIter e h 4) h = .Dead := by
    show Coroutine.status (Coroutine.resume (resumeIter e h 3) h).1 h = _
    rw [h4]; exact st3
  exact ⟨st0, da, ra, st1, db, rb, st2, dc, rc, st3, h4, st4⟩

/-- Witness for C1 at the concrete two-yield coroutine of `demoEngine`. -/
theorem C1_witness :
    (1 : Nat) ∉ demoEngine.chain ∧
    (Coroutine.status demoEngine 1 = .Suspended ∧
     Coroutine.status (resumeEnter demoEngine 1) 1 = .Running ∧
     (Coroutine.resume demoEngine 1).2 = .ok () ∧
     Coroutine.status (resumeIter demoEngine 1 1) 1 = .Suspended ∧
     Coroutine.status (resumeEnter (resumeIter demoEngine 1 1) 1) 1 = .Running ∧
     (Coroutine.resume (resumeIter demoEngine 1 1) 1).2 = .ok () ∧
     Coroutine.status (resumeIter demoEngine 1 2) 1 = .Suspended ∧
     Coroutine.status (resumeEnter (resumeIter demoEngine 1 2) 1) 1 = .Running ∧
     (Coroutine.resume (resumeIter demoEngine 1 2) 1).2 = .ok () ∧
     Coroutine.status (resumeIter demoEngine 1 3) 1 = .Dead ∧
     Coroutine.resume (resumeIter demoEngine 1 3) 1 =
       (resumeIter demoEngine 1 3, .error .NotSuspended) ∧
     Coroutine.status (resumeIter demoEngine 1 4) 1 = .Dead) :=
  ⟨by decide,
    C1_resume_lifecycle demoEngine 1 ⟨MCO_SUSPENDED, 2, ⟨[10, 20], 4⟩⟩ (by decide) rfl rfl rfl⟩

/-- C4: when the payload fits in the remaining capacity, push followed
immediately by pop of the same length on the same coroutine succeeds,
returns byte-identical content, and restores the bytes-stored count to its
value before the push. -/
theorem C4_push_pop_roundtrip (e : Engine) (h : Nat) (cb : ControlBlock) (data : List Nat)
    (hcb : e.coros h = some cb)
    (hfit : cb.channel.bytes.length + data.length ≤ cb.channel.capacity) :
    (Coroutine.push e h data).2 = .ok () ∧
    (Coroutine.pop (Coroutine.push e h data).1 h data.length).2 = .ok data ∧
    Coroutine.bytes_stored (Coroutine.pop (Coroutine.push e h data).1 h data.length).1 h =
      Coroutine.bytes_stored e h := by
  have hnov : ¬ (cb.channel.capacity < cb.channel.bytes.length + data.length) :=
    not_lt.mpr hfit
  have hp : mco_push e h data =
      (e.setCoro h fun c =>
        { c with channel := { c.channel with bytes := c.channel.bytes ++ data } },
       MCO_SUCCESS) := by
    simp [mco_push, hcb, hnov]
  have hw : Coroutine.push e h data = ((mco_push e h data).1, .ok ()) := by
    simp [Coroutine.push, hp]
  have hc1 : (Coroutine.push e h data).1.coros h =
      some ⟨cb.rawState, cb.yields, ⟨cb.channel.bytes ++ data, cb.channel.capacity⟩⟩ := by
    rw [hw, hp]
    simp [Engine.setCoro, hcb]
  have hnlt : ¬ ((cb.channel.bytes ++ data).length < data.length) := by
    simp
  have hsub : (cb.channel.bytes ++ data).length - data.length = cb.channel.bytes.length := by
    simp
  have hres : (mco_pop (Coroutine.push e h data).1 h data.length).2.1 = MCO_SUCCESS := by
    simp [mco_pop, hc1, hnlt]
  have hbuf : (mco_pop (Coroutine.push e h data).1 h data.length).2.2 = some data := by
    simp only [mco_pop, hc1, if_neg hnlt]
    rw [hsub, List.drop_left]
  have hcoros : (mco_pop (Coroutine.push e h data).1 h data.length).1.coros h =
      some ⟨cb.rawState, cb.yields, ⟨cb.channel.bytes, cb.channel.capacity⟩⟩ := by
    simp only [mco_pop, hc1, if_neg hnlt]
    simp [Engine.setCoro, hc1]
  refine ⟨by rw [hw], ?_, ?_⟩
  · simp [Coroutine.pop, hres, hbuf]
  · have hpop1 : (Coroutine.pop (Coroutine.push e h data).1 h data.length).1 =
        (mco_pop (Coroutine.push e h data).1 h data.length).1 := by
      simp [Coroutine.pop, hres]
    rw [hpop1]
    simp [Coroutine.bytes_stored, mco_get_bytes_stored, hcoros, hcb]

/-- Witness for C4: pushing two bytes onto a half-full four-byte channel and
popping two bytes returns them byte-identically and restores the count. -/
theorem C4_witness :
    demoEngine.coros 1 = some ⟨MCO_SUSPENDED, 2, ⟨[10, 20], 4⟩⟩ ∧
    (2 + 2 : Nat) ≤ 4 ∧
    ((Coroutine.push demoEngine 1 [7, 8]).2 = .ok () ∧
     (Coroutine.pop (Coroutine.push demoEngine 1 [7, 8]).1 1 [7, 8].length).2 = .ok [7, 8] ∧
     Coroutine.bytes_stored
       (Coroutine.pop (Coroutine.push demoEngine 1 [7, 8]).1 1 [7, 8].length).1 1 =
       Coroutine.bytes_stored demoEngine 1) :=
  ⟨rfl, by decide,
    C4_push_pop_roundtrip demoEngine 1 ⟨MCO_SUSPENDED, 2, ⟨[10, 20], 4⟩⟩ [7, 8] rfl
      (by decide)⟩

theorem mco_pop_success_buffer (e : Engine) (h len : Nat)
    (hs : (mco_pop e h len).2.1 = MCO_SUCCESS) :
    ∃ v, (mco_pop e h len).2.2 = some v ∧ v.length = len := by
  cases hc : e.coros h with
  | none => simp [mco_pop, hc, MCO_INVALID_COROUTINE, MCO_SUCCESS] at hs
  | some cb =>
    by_cases hlt : cb.channel.bytes.length < len
    · simp [mco_pop, hc, hlt, MCO_NOT_ENOUGH_SPACE, MCO_SUCCESS] at hs
    · refine ⟨cb.channel.bytes.drop (cb.channel.bytes.length - len), ?_, ?_⟩
      · simp [mco_pop, hc, hlt]
      · simp
        omega

/-- C10: `pop` returns an `Ok` value exactly when the underlying channel pop
reports success, in which case the output buffer was fully written with
`size` bytes and the returned value is that buffer content; on every failure
it returns the error mapped from the raw code and the (never-written) output
buffer is not read. -/
theorem C10_pop_reads_only_initialized (e : Engine) (h size : Nat) :
    (∀ v, (Coroutine.pop e h size).2 = .ok v →
      (mco_pop e h size).2.1 = MCO_SUCCESS ∧
      (mco_pop e h size).2.2 = some v ∧ v.length = size) ∧
    ((mco_pop e h size).2.1 ≠ MCO_SUCCESS →
      (Coroutine.pop e h size).2 = .error (CoroutineError.from_raw (mco_pop e h size).2.1)) := by
  constructor
  · intro v hv
    by_cases hs : (mco_pop e h size).2.1 = MCO_SUCCESS
    · obtain ⟨w, hwbuf, hwl⟩ := mco_pop_success_buffer e h size hs
      have hok : (Coroutine.pop e h size).2 = .ok w := by
        simp [Coroutine.pop, hs, hwbuf]
      rw [hok] at hv
      obtain rfl : w = v := Except.ok.inj hv
      exact ⟨hs, hwbuf, hwl⟩
    · simp [Coroutine.pop, hs] at hv
  · intro hs
    simp [Coroutine.pop, hs]

/-- Witness for C10: popping one byte from the two-byte channel of
`demoEngine` succeeds having written exactly that byte. -/
theorem C10_witness :
    (Coroutine.pop demoEngine 1 1).2 = .ok [20] ∧
    ((mco_pop demoEngine 1 1).2.1 = MCO_SUCCESS ∧
     (mco_pop demoEngine 1 1).2.2 = some [20] ∧ ([20] : List Nat).length = 1) :=
  ⟨rfl, (C10_pop_reads_only_initialized demoEngine 1 1).1 [20] rfl⟩

theorem mco_resume_result_le (e : Engine) (h : Nat) : (mco_resume e h).2 ≤ 12 := by
  cases hc : e.coros h with
  | none => simp [mco_resume, hc, MCO_INVALID_COROUTINE]
  | some cb =>
    by_cases hs : cb.rawState = MCO_SUSPENDED <;>
      simp [mco_resume, hc, hs, MCO_SUCCESS, MCO_NOT_SUSPENDED]

theorem mco_yield_result_le (e : Engine) (h : Nat) : (mco_yield e h).2 ≤ 12 := by
  cases hc : e.coros h with
  | none => simp [mco_yield, hc, MCO_INVALID_COROUTINE]
  | some cb =>
    by_cases hs : cb.rawState = MCO_RUNNING <;>
      simp [mco_yield, hc, hs, MCO_SUCCESS, MCO_NOT_RUNNING]

theorem mco_push_result_le (e : Engine) (h : Nat) (data : List Nat) :
    (mco_push e h data).2 ≤ 12 := by
  cases hc : e.coros h with
  | none => simp [mco_push, hc, MCO_INVALID_COROUTINE]
  | some cb =>
    by_cases hs : cb.channel.capacity < cb.channel.bytes.length + data.length <;>
      simp [mco_push, hc, hs, MCO_SUCCESS, MCO_NOT_ENOUGH_SPACE]

theorem mco_pop_result_le (e : Engine) (h len : Nat) : (mco_pop e h len).2.1 ≤ 12 := by
  cases hc : e.coros h with
  | none => simp [mco_pop, hc, MCO_INVALID_COROUTINE]
  | some cb =>
    by_cases hs : cb.channel.bytes.length < len <;>
      simp [mco_pop, hc, hs, MCO_SUCCESS, MCO_NOT_ENOUGH_SPACE]

theorem mco_create_result_le (e : Engine) (y ss cap : Nat) (ok : Bool) :
    (mco_create e y ss cap ok).2.1 ≤ 12 := by
  by_cases ho : ok = false
  · simp [mco_create, ho, MCO_OUT_OF_MEMORY]
  · by_cases hss : ss < MCO_MIN_STACK_SIZE <;>
      simp [mco_create, ho, hss, MCO_INVALID_ARGUMENTS, MCO_SUCCESS]

theorem from_raw_mem_listed (r : Nat) (hr : r ≤ 12) :
    CoroutineError.from_raw r ∈ listedOutcomes := by
  interval_cases r <;> decide

/-- C6: every error value surfaced by a fallible public operation of the
wrapper (new, resume, yield_now, yield_current and its unchecked variant,
push, pop) is one of the thirteen outcomes of the spec's closed error
surface; in particular the Unknown fallback variant is never surfaced, and
every operation is a total function returning a discriminated result. -/
theorem C6_closed_error_surface (err : CoroutineError) (hsurf : SurfacedError err) :
    err ∈ listedOutcomes := by
  rcases hsurf with ⟨e, y, ss, cap, ok, heq⟩ | ⟨e, h, heq⟩ | ⟨e, h, heq⟩ | ⟨e, heq⟩ |
    ⟨e, heq⟩ | ⟨e, h, data, heq⟩ | ⟨e, h, len, heq⟩
  · by_cases hs : (mco_create e y ss cap ok).2.1 = MCO_SUCCESS
    · simp [Coroutine.new, hs] at heq
    · simp [Coroutine.new, hs] at heq
      rw [← heq]
      exact from_raw_mem_listed _ (mco_create_result_le e y ss cap ok)
  · by_cases hs : (mco_resume e h).2 = MCO_SUCCESS
    · simp [Coroutine.resume, hs] at heq
    · simp [Coroutine.resume, hs] at heq
      rw [← heq]
      exact from_raw_mem_listed _ (mco_resume_result_le e h)
  · by_cases hs : (mco_yield e h).2 = MCO_SUCCESS
    · simp [Coroutine.yield_now, hs] at heq
    · simp [Coroutine.yield_now, hs] at heq
      rw [← heq]
      exact from_raw_mem_listed _ (mco_yield_result_le e h)
  · cases hr : running e with
    | none =>
      simp [yield_current, hr] at heq
      rw [← heq]; decide
    | some co =>
      by_cases hs : (mco_yield e co).2 = MCO_SUCCESS
      · simp [yield_current, hr, hs] at heq
      · simp [yield_current, hr, hs] at heq
        rw [← heq]
        exact from_raw_mem_listed _ (mco_yield_result_le e co)
  · cases hr : running e with
    | none =>
      simp [ yield_current_unsafe, hr] at heq
      rw [← heq]; decide
    | some co =>
      by_cases hs : (mco_yield e co).2 = MCO_SUCCESS
      · simp [ yield_current_unsafe, hr, hs] at heq
      · simp [ yield_current_unsafe, hr, hs] at heq
        rw [← heq]
        exact from_raw_mem_listed _ (mco_yield_result_le e co)
  · by_cases hs : (mco_push e h data).2 = MCO_SUCCESS
    · simp [Coroutine.push, hs] at heq
    · simp [Coroutine.push, hs] at heq
      rw [← heq]
      exact from_raw_mem_listed _ (mco_push_result_le e h data)
  · by_cases hs : (mco_pop e h len).2.1 = MCO_SUCCESS
    · simp [Coroutine.pop, hs] at heq
    · simp [Coroutine.pop, hs] at heq
      rw [← heq]
      exact from_raw_mem_listed _ (mco_pop_result_le e h len)

/-- Witness for C6: the NotSuspended error surfaced by resuming the Dead
coroutine of `deadEngine` is among the thirteen listed outcomes. -/
theorem C6_witness :
    SurfacedError .NotSuspended ∧ CoroutineError.NotSuspended ∈ listedOutcomes :=
  ⟨Or.inr (Or.inl ⟨deadEngine, 1, rfl⟩),
    C6_closed_error_surface .NotSuspended (Or.inr (Or.inl ⟨deadEngine, 1, rfl⟩))⟩

theorem handleStep_inv (s : HandleSys) (ev : HandleEvent) (s1 : HandleSys)
    (hinv : HandleInv s) (hst : handleStep s ev = some s1) : HandleInv s1 := by
  obtain ⟨hcN, hlN, hdN, hd0, hl0, hlc, hdc, hld, hcov⟩ := hinv
  cases ev with
  | create h =>
    by_cases hcond : h ≠ 0 ∧ h ∉ s.created
    · simp only [handleStep, if_pos hcond] at hst
      obtain ⟨hh0, hfresh⟩ := hcond
      injection hst with hst
      subst hst
      refine ⟨?_, ?_, hdN, hd0, ?_, ?_, ?_, ?_, ?_⟩
      · rw [List.nodup_append]
        refine ⟨hcN, List.nodup_singleton h, ?_⟩
        intro a ha hb
        rw [List.mem_singleton] at hb
        exact hfresh (hb ▸ ha)
      · exact List.nodup_cons.mpr ⟨fun hm => hfresh (hlc h hm), hlN⟩
      · intro k hk
        rcases List.mem_cons.mp hk with rfl | hk
        · exact hh0
        · exact hl0 k hk
      · intro k hk
        rcases List.mem_cons.mp hk with rfl | hk
        · exact List.mem_append_right _ (List.mem_singleton_self k)
        · exact List.mem_append_left _ (hlc k hk)
      · intro k hk
        exact List.mem_append_left _ (hdc k hk)
      · intro k hk
        rcases List.mem_cons.mp hk with rfl | hk
        · exact fun hmem => hfresh (hdc k hmem)
        · exact hld k hk
      · intro k hk
        rcases List.mem_append.mp hk with hk | hk
        · rcases hcov k hk with hk2 | hk2
          · exact Or.inl (List.mem_cons_of_mem _ hk2)
          · exact Or.inr hk2
        · rw [List.mem_singleton] at hk
          exact Or.inl (hk ▸ List.mem_cons_self _ _)
    · simp [handleStep, if_neg hcond] at hst
  | dropco h =>
    by_cases hcond : h ∈ s.live
    · simp only [handleStep, if_pos hcond] at hst
      injection hst with hst
      subst hst
      have hh0 : h ≠ 0 := hl0 h hcond
      have hcd : coroDrop h s.destroyed = s.destroyed ++ [h] := by
        simp [coroDrop, hh0]
      refine ⟨hcN, hlN.erase h, ?_, ?_, ?_, ?_, ?_, ?_, ?_⟩ <;> rw [hcd]
      · rw [List.nodup_append]
        refine ⟨hdN, List.nodup_singleton h, ?_⟩
        intro a ha hb
        rw [List.mem_singleton] at hb
        exact hld h hcond (hb ▸ ha)
      · intro hmem
        rcases List.mem_append.mp hmem with hk | hk
        · exact hd0 hk
        · rw [List.mem_singleton] at hk
          exact hh0 hk.symm
      · intro k hk
        exact hl0 k (List.mem_of_mem_erase hk)
      · intro k hk
        exact hlc k (List.mem_of_mem_erase hk)
      · intro k hk
        rcases List.mem_append.mp hk with hk | hk
        · exact hdc k hk
        · rw [List.mem_singleton] at hk
          exact hk ▸ hlc h hcond
      · intro k hk hmem
        obtain ⟨hkne, hkl⟩ := (hlN.mem_erase_iff).mp hk
        rcases List.mem_append.mp hmem with hm | hm
        · exact hld k hkl hm
        · rw [List.mem_singleton] at hm
          exact hkne hm
      · intro k hk
        rcases hcov k hk with hk2 | hk2
        · by_cases hke : k = h
          · exact Or.inr (List.mem_append_right _ (hke ▸ List.mem_singleton_self k))
          · exact Or.inl ((List.mem_erase_of_ne hke).mpr hk2)
        · exact Or.inr (List.mem_append_left _ hk2)
    · simp [handleStep, if_neg hcond] at hst

theorem handleExec_inv (evs : List HandleEvent) (s s2 : HandleSys)
    (hinv : HandleInv s) (hex : handleExec s evs = some s2) : HandleInv s2 := by
  induction evs generalizing s with
  | nil =>
    simp only [handleExec, Option.some.injEq] at hex
    rwa [← hex]
  | cons ev evs ih =>
    simp only [handleExec] at hex
    cases hst : handleStep s ev with
    | none => rw [hst] at hex; simp at hex
    | some s1 =>
      rw [hst] at hex
      exact ih s1 (handleStep_inv s ev s1 hinv hst) hex

/-- C8: along every event sequence in which each successful create yields a
fresh non-null owning handle and each live `Coroutine` value can be dropped
at most once (Rust ownership), the translated drop implementation invokes
`mco_destroy` exactly once per created-and-dropped coroutine and only on a
non-null handle: the destroy log never repeats a handle (no double-free),
never contains the null handle, contains only created handles, and every
created handle is either still live and not yet destroyed, or dropped and
destroyed exactly once (no leak on drop). -/
theorem C8_drop_exactly_once (evs : List HandleEvent) (s : HandleSys)
    (hex : handleExec HandleSys.init evs = some s) :
    s.destroyed.Nodup ∧ 0 ∉ s.destroyed ∧
    (∀ h ∈ s.destroyed, h ∈ s.created) ∧
    (∀ h ∈ s.created,
      (h ∈ s.live ∧ h ∉ s.destroyed) ∨ (h ∉ s.live ∧ h ∈ s.destroyed)) := by
  have hinv := handleExec_inv evs HandleSys.init s
    (by simp [HandleInv, HandleSys.init]) hex
  obtain ⟨hcN, hlN, hdN, hd0, hl0, hlc, hdc, hld, hcov⟩ := hinv
  refine ⟨hdN, hd0, hdc, ?_⟩
  intro h hc
  rcases hcov h hc with hl | hd
  · exact Or.inl ⟨hl, hld h hl⟩
  · exact Or.inr ⟨fun hl => hld h hl hd, hd⟩

/-- Witness for C8: creating handle 1 and dropping it destroys it exactly
once. -/
theorem C8_witness :
    handleExec HandleSys.init [HandleEvent.create 1, HandleEvent.dropco 1] =
      some ⟨[1], [], [1]⟩ ∧
    (([1] : List Nat).Nodup ∧ (0 : Nat) ∉ ([1] : List Nat) ∧
     (∀ h ∈ ([1] : List Nat), h ∈ ([1] : List Nat)) ∧
     (∀ h ∈ ([1] : List Nat),
       (h ∈ ([] : List Nat) ∧ h ∉ ([1] : List Nat)) ∨
       (h ∉ ([] : List Nat) ∧ h ∈ ([1] : List Nat)))) :=
  ⟨by decide,
    C8_drop_exactly_once [HandleEvent.create 1, HandleEvent.dropco 1] ⟨[1], [], [1]⟩
      (by decide)⟩
